import Mathlib

/-!
Shallow embedding of the STM32F446RE NVIC driver
(src/Src/NVIC_Program.c, src/Inc/NVIC_Interface.h).

The driver manipulates the memory-mapped NVIC register block through five
bit-array register families (ISER, ICER, ISPR, ICPR, IABR) and one packed
priority register array (IPR).  The register block itself is declared in
LIB/STM32F446xx.h, which is outside this repository's src tree, so its
semantics is modelled from the spec (section 3, Data Model):

  * ISER / ICER are two write-only views of one logical "enable" bit array:
    writing a word to ISER sets the bits that are 1 in the written word,
    writing a word to ICER clears those bits; reading ISER returns the
    enable state.
  * ISPR / ICPR are the same write-1-to-set / write-1-to-clear pair for the
    "pending" bit array; reading ISPR returns the pending state.
  * IABR is a read-only bit array maintained by the hardware (active state).
  * IPR is an ordinary read/write register array (four 8-bit priority
    fields packed per 32-bit register).

All registers are 32 bits wide.  Machine words are represented as `Nat`;
bit operations (`&&&`, `|||`, `^^^`, `<<<`, `>>>`) match the C operators,
and the C unary complement `~m` of a 32-bit word is `0xFFFFFFFF ^^^ m`.
The C implicit conversion of a `uint32_t` value to `uint8_t` is `% 256`.
-/

/-- Update a register array (a function from register index to word) at one
index, leaving every other register unchanged. -/
def updReg (f : Nat → Nat) (i v : Nat) : Nat → Nat :=
  fun j => if j = i then v else f j

/-- Modelled from the spec: a write of word `v` to index `i` of a
write-1-to-set register array whose readable state is `f` — the bits set in
`v` become set, all other bits keep their value. -/
def w1sWrite (f : Nat → Nat) (i v : Nat) : Nat → Nat :=
  updReg f i (f i ||| v)

/-- Modelled from the spec: a write of word `v` to index `i` of a
write-1-to-clear register array whose readable state is `f` — the bits set
in `v` become clear, all other bits keep their value (registers are 32-bit,
so the hardware complement of `v` is `0xFFFFFFFF ^^^ v`). -/
def w1cWrite (f : Nat → Nat) (i v : Nat) : Nat → Nat :=
  updReg f i (f i &&& (0xFFFFFFFF ^^^ v))

/-- Modelled from the spec: the NVIC register block (declared in
LIB/STM32F446xx.h, outside src).  `ISER` is the readable enable bit-array
state (written through both ISER and ICER), `ISPR` the readable pending
bit-array state (written through both ISPR and ICPR), `IABR` the read-only
active bit array, `IPR` the packed priority register array. -/
@[ext] structure NVIC_RegDef where
  ISER : Nat → Nat
  ISPR : Nat → Nat
  IABR : Nat → Nat
  IPR : Nat → Nat

/-- A register block with every register zero (device reset state); used as
a concrete test state. -/
def initState : NVIC_RegDef :=
  { ISER := fun _ => 0, ISPR := fun _ => 0, IABR := fun _ => 0, IPR := fun _ => 0 }

/-- The discriminants of the `IRQn_Type` enumeration of
src/Inc/NVIC_Interface.h: WWDG = 0 up to DMA2_Stream4 = 60 consecutively,
then CAN2_TX = 63 up to DCMI = 78 consecutively, FPU = 81, SPI4 = 84,
SAI1 = 87, and SAI2 = 91 up to FMPI2C1_error = 96 consecutively. -/
def IRQ_values : List Nat :=
  List.range 61 ++ (List.range 16).map (fun k => 63 + k) ++
    [81, 84, 87] ++ [91, 92, 93, 94, 95, 96]

/-- An interrupt identifier is supported when it is a discriminant of the
`IRQn_Type` enumeration. -/
def ValidIRQ (IRQn : Nat) : Prop :=
  IRQn ∈ IRQ_values

instance (IRQn : Nat) : Decidable (ValidIRQ IRQn) := by
  unfold ValidIRQ; infer_instance

/-- Embedding of `NVIC_EnableIRQ` (src/Src/NVIC_Program.c:24): write
`1 << (IRQn % 32)` to `ISER[IRQn / 32]`. -/
def NVIC_EnableIRQ (s : NVIC_RegDef) (IRQn : Nat) : NVIC_RegDef :=
  let RegNum := IRQn / 32
  let BitNum := IRQn % 32
  { s with ISER := w1sWrite s.ISER RegNum (1 <<< BitNum) }

/-- Embedding of `NVIC_DisableIRQ` (src/Src/NVIC_Program.c:40): write
`1 << (IRQn % 32)` to `ICER[IRQn / 32]`, which clears that bit of the
enable state. -/
def NVIC_DisableIRQ (s : NVIC_RegDef) (IRQn : Nat) : NVIC_RegDef :=
  let RegNum := IRQn / 32
  let BitNum := IRQn % 32
  { s with ISER := w1cWrite s.ISER RegNum (1 <<< BitNum) }

/-- Embedding of `NVIC_SetPendingIRQ` (src/Src/NVIC_Program.c:56): write
`1 << (IRQn % 32)` to `ISPR[IRQn / 32]`. -/
def NVIC_SetPendingIRQ (s : NVIC_RegDef) (IRQn : Nat) : NVIC_RegDef :=
  let RegNum := IRQn / 32
  let BitNum := IRQn % 32
  { s with ISPR := w1sWrite s.ISPR RegNum (1 <<< BitNum) }

/-- Embedding of `NVIC_ClearPendingIRQ` (src/Src/NVIC_Program.c:71): write
`1 << (IRQn % 32)` to `ICPR[IRQn / 32]`, which clears that bit of the
pending state. -/
def NVIC_ClearPendingIRQ (s : NVIC_RegDef) (IRQn : Nat) : NVIC_RegDef :=
  let RegNum := IRQn / 32
  let BitNum := IRQn % 32
  { s with ISPR := w1cWrite s.ISPR RegNum (1 <<< BitNum) }

/-- Embedding of `NVIC_GetPendingIRQ` (src/Src/NVIC_Program.c:87): the C
function computes `ISPR[IRQn / 32] & (1 << (IRQn % 32))` as a 32-bit word
and assigns it to a `uint8_t` local that it returns, so the result is the
masked word reduced modulo 256. -/
def NVIC_GetPendingIRQ (s : NVIC_RegDef) (IRQn : Nat) : Nat :=
  let RegNum := IRQn / 32
  let BitNum := IRQn % 32
  (s.ISPR RegNum &&& (1 <<< BitNum)) % 256

/-- Embedding of `NVIC_SetPriority` (src/Src/NVIC_Program.c:108): when
`priority > 15` the then-branch only assigns `priority = 15` to the local
parameter and performs no register access; the register read-modify-write
(clear the upper nibble of the 8-bit field, then OR in the 4-bit priority
at the upper-nibble position) sits in the else-branch. -/
def NVIC_SetPriority (s : NVIC_RegDef) (IRQn priority : Nat) : NVIC_RegDef :=
  if priority > 15 then
    s
  else
    let RegIndex := IRQn / 4
    let PriorityPos := (IRQn % 4) * 8
    let ipr1 := updReg s.IPR RegIndex
      (s.IPR RegIndex &&& (0xFFFFFFFF ^^^ (0xF0 <<< PriorityPos)))
    let ipr2 := updReg ipr1 RegIndex
      (ipr1 RegIndex ||| ((priority &&& 0xF) <<< (PriorityPos + 4)))
    { s with IPR := ipr2 }

/-- Embedding of `NVIC_GetPriority` (src/Src/NVIC_Program.c:139): read
`IPR[IRQn / 4]`, shift right by `(IRQn % 4) * 8 + 4`, mask to 4 bits. -/
def NVIC_GetPriority (s : NVIC_RegDef) (IRQn : Nat) : Nat :=
  let RegIndex := IRQn / 4
  let PriorityPos := (IRQn % 4) * 8
  (s.IPR RegIndex >>> (PriorityPos + 4)) &&& 0x0F

/-- Embedding of `NVIC_GetActive` (src/Src/NVIC_Program.c:163): read
`IABR[IRQn / 32]`, mask with `1 << (IRQn % 32)`, return 1 if non-zero else
0. -/
def NVIC_GetActive (s : NVIC_RegDef) (IRQn : Nat) : Nat :=
  let RegNum := IRQn / 32
  let BitNum := IRQn % 32
  if s.IABR RegNum &&& (1 <<< BitNum) ≠ 0 then 1 else 0

/-- One driver API call, with its identifier (and priority) argument. -/
inductive NVICOp where
  | enableIRQ (IRQn : Nat)
  | disableIRQ (IRQn : Nat)
  | setPendingIRQ (IRQn : Nat)
  | clearPendingIRQ (IRQn : Nat)
  | getPendingIRQ (IRQn : Nat)
  | setPriority (IRQn priority : Nat)
  | getPriority (IRQn : Nat)
  | getActive (IRQn : Nat)

/-- Run one driver call on a register block; the result is the register
block after the call together with the value the call returns (0 for the
void operations). -/
def runOp (s : NVIC_RegDef) : NVICOp → NVIC_RegDef × Nat
  | .enableIRQ IRQn => (NVIC_EnableIRQ s IRQn, 0)
  | .disableIRQ IRQn => (NVIC_DisableIRQ s IRQn, 0)
  | .setPendingIRQ IRQn => (NVIC_SetPendingIRQ s IRQn, 0)
  | .clearPendingIRQ IRQn => (NVIC_ClearPendingIRQ s IRQn, 0)
  | .getPendingIRQ IRQn => (s, NVIC_GetPendingIRQ s IRQn)
  | .setPriority IRQn priority => (NVIC_SetPriority s IRQn priority, 0)
  | .getPriority IRQn => (s, NVIC_GetPriority s IRQn)
  | .getActive IRQn => (s, NVIC_GetActive s IRQn)

/-- Run a sequence of driver calls, threading the register block through. -/
def runSeq (s : NVIC_RegDef) (ops : List NVICOp) : NVIC_RegDef :=
  ops.foldl (fun t op => (runOp t op).1) s

/-! ## Bit-level helper lemmas -/

theorem updReg_same (f : Nat → Nat) (i v : Nat) : updReg f i v i = v := by
  simp [updReg]

theorem updReg_other (f : Nat → Nat) (i v j : Nat) (h : j ≠ i) :
    updReg f i v j = f j := by
  simp [updReg, h]

theorem updReg_updReg (f : Nat → Nat) (i v w : Nat) :
    updReg (updReg f i v) i w = updReg f i w := by
  funext j
  by_cases h : j = i <;> simp [updReg, h]

theorem lor_self_right (a m : Nat) : (a ||| m) ||| m = a ||| m := by
  apply Nat.eq_of_testBit_eq
  intro i
  simp [Nat.testBit_lor, Bool.or_assoc]

theorem land_self_right (a m : Nat) : (a &&& m) &&& m = a &&& m := by
  apply Nat.eq_of_testBit_eq
  intro i
  simp [Nat.testBit_land, Bool.and_assoc]

theorem lor_land_distrib (a b c : Nat) :
    (a ||| b) &&& c = (a &&& c) ||| (b &&& c) := by
  apply Nat.eq_of_testBit_eq
  intro i
  simp [Nat.testBit_land, Nat.testBit_lor, Bool.and_or_distrib_right]

theorem testBit_mask32 (i : Nat) : Nat.testBit 0xFFFFFFFF i = decide (i < 32) := by
  rw [show (0xFFFFFFFF : Nat) = 2 ^ 32 - 1 from rfl, Nat.testBit_two_pow_sub_one]

theorem testBit_nibble (i : Nat) : Nat.testBit 0xF i = decide (i < 4) := by
  rw [show (0xF : Nat) = 2 ^ 4 - 1 from rfl, Nat.testBit_two_pow_sub_one]

theorem testBit_F0 (i : Nat) : Nat.testBit 0xF0 i = (decide (4 ≤ i) && decide (i < 8)) := by
  rw [show (0xF0 : Nat) = (2 ^ 4 - 1) <<< 4 from rfl, Nat.testBit_shiftLeft,
    Nat.testBit_two_pow_sub_one]
  rcases Nat.lt_or_ge i 4 with h | h
  · simp [Nat.not_le.mpr h, Nat.le_of_lt h]
  · simp [h]
    omega

theorem testBit_one_bit (i : Nat) : Nat.testBit 1 i = decide (i = 0) := by
  rw [show (1 : Nat) = 2 ^ 1 - 1 from rfl, Nat.testBit_two_pow_sub_one]
  rw [decide_eq_decide]
  omega
theorem priority_field_roundtrip (x p pos : Nat) (hp : p ≤ 15) (hpos : pos ≤ 24) :
    ((((x &&& (0xFFFFFFFF ^^^ (0xF0 <<< pos))) |||
        ((p &&& 0xF) <<< (pos + 4))) >>> (pos + 4)) &&& 0xF) = p := by
  apply Nat.eq_of_testBit_eq
  intro i
  rw [Nat.testBit_land, testBit_nibble, Nat.testBit_shiftRight, Nat.testBit_lor,
    Nat.testBit_land, Nat.testBit_xor, testBit_mask32, Nat.testBit_shiftLeft,
    Nat.testBit_shiftLeft, testBit_F0, Nat.testBit_land, testBit_nibble]
  by_cases hi : i < 4
  · have d1 : decide (pos + 4 + i < 32) = true := decide_eq_true (by omega)
    have d2 : decide (pos ≤ pos + 4 + i) = true := decide_eq_true (by omega)
    have d3 : pos + 4 + i - pos = 4 + i := by omega
    have d4 : decide (4 ≤ 4 + i) = true := decide_eq_true (by omega)
    have d5 : decide (4 + i < 8) = true := decide_eq_true (by omega)
    have d6 : decide (pos + 4 ≤ pos + 4 + i) = true := decide_eq_true (by omega)
    have d7 : pos + 4 + i - (pos + 4) = i := by omega
    have d8 : decide (i < 4) = true := decide_eq_true hi
    rw [d3, d7]
    simp [d1, d2, d4, d5, d6, d8]
  · have hpi : p < 2 ^ i := by
      have h4 : (2 : Nat) ^ 4 ≤ 2 ^ i := Nat.pow_le_pow_right (by norm_num) (by omega)
      omega
    have d8 : decide (i < 4) = false := decide_eq_false hi
    rw [d8, Nat.testBit_lt_two_pow hpi]
    simp

theorem priority_field_other (x p pos q : Nat) (hpos : pos ≤ 24) (hq : q ≤ 24)
    (hsep : pos + 8 ≤ q ∨ q + 8 ≤ pos) :
    ((((x &&& (0xFFFFFFFF ^^^ (0xF0 <<< pos))) |||
        ((p &&& 0xF) <<< (pos + 4))) >>> (q + 4)) &&& 0xF)
      = ((x >>> (q + 4)) &&& 0xF) := by
  apply Nat.eq_of_testBit_eq
  intro i
  rw [Nat.testBit_land, testBit_nibble, Nat.testBit_shiftRight, Nat.testBit_lor,
    Nat.testBit_land, Nat.testBit_xor, testBit_mask32, Nat.testBit_shiftLeft,
    Nat.testBit_shiftLeft, testBit_F0, Nat.testBit_land, testBit_nibble,
    Nat.testBit_land, testBit_nibble, Nat.testBit_shiftRight]
  by_cases hi : i < 4
  · have d1 : decide (q + 4 + i < 32) = true := decide_eq_true (by omega)
    have dmask : (decide (pos ≤ q + 4 + i) &&
        (decide (4 ≤ q + 4 + i - pos) && decide (q + 4 + i - pos < 8))) = false := by
      rcases hsep with h | h
      · have e : decide (q + 4 + i - pos < 8) = false := decide_eq_false (by omega)
        simp [e]
      · have e : decide (pos ≤ q + 4 + i) = false := decide_eq_false (by omega)
        simp [e]
    have dset : (decide (pos + 4 ≤ q + 4 + i) &&
        (p.testBit (q + 4 + i - (pos + 4)) && decide (q + 4 + i - (pos + 4) < 4))) = false := by
      rcases hsep with h | h
      · have e : decide (q + 4 + i - (pos + 4) < 4) = false := decide_eq_false (by omega)
        simp [e]
      · have e : decide (pos + 4 ≤ q + 4 + i) = false := decide_eq_false (by omega)
        simp [e]
    rw [d1, dmask, dset]
    simp
  · simp [decide_eq_false hi]

theorem setbits_land_compl (p pos : Nat) (hpos : pos ≤ 24) :
    ((p &&& 0xF) <<< (pos + 4)) &&& (0xFFFFFFFF ^^^ (0xF0 <<< pos)) = 0 := by
  apply Nat.eq_of_testBit_eq
  intro i
  rw [Nat.testBit_land, Nat.testBit_shiftLeft, Nat.testBit_land, testBit_nibble,
    Nat.testBit_xor, testBit_mask32, Nat.testBit_shiftLeft, testBit_F0, Nat.zero_testBit]
  by_cases h1 : pos + 4 ≤ i
  · by_cases h2 : i - (pos + 4) < 4
    · have e1 : decide (i < 32) = true := decide_eq_true (by omega)
      have e2 : decide (pos ≤ i) = true := decide_eq_true (by omega)
      have e3 : decide (4 ≤ i - pos) = true := decide_eq_true (by omega)
      have e4 : decide (i - pos < 8) = true := decide_eq_true (by omega)
      simp [e1, e2, e3, e4]
    · simp [decide_eq_false h2]
  · simp [decide_eq_false h1]

/-! ## Claim theorems -/

/-- C6: when `NVIC_SetPriority` is called with a priority above 15, no
register write is performed at all — the whole register block is left
exactly as it was before the call (the write sits in the else-branch of
the range check). -/
theorem setPriority_above_15_writes_nothing (s : NVIC_RegDef) (IRQn p : Nat)
    (h : 15 < p) : NVIC_SetPriority s IRQn p = s := by
  simp [NVIC_SetPriority, h]

/-- Witness for C6 at the concrete input `IRQn = 6` (EXTI0), `p = 16`,
from the reset state. -/
theorem setPriority_above_15_writes_nothing_witness :
    15 < 16 ∧ NVIC_SetPriority initState 6 16 = initState :=
  ⟨by decide, setPriority_above_15_writes_nothing initState 6 16 (by decide)⟩

/-- C1: evaluation of the code at the failing input.  The claim says
`SetPriority(id, p)` with `p > 15` stores the clamped value 15, so that
`GetPriority(id)` returns 15.  In the code the clamp assignment sits in
the then-branch while the register write sits in the else-branch, so the
call writes nothing: starting from the reset state, after
`SetPriority(EXTI0 = 6, 16)` the call `GetPriority(6)` returns 0, not 15. -/
theorem setPriority_clamp_claim_fails_eval :
    NVIC_GetPriority (NVIC_SetPriority initState 6 16) 6 = 0 := by
  decide

/-- C2: evaluation of the code at the failing input.  The claim says
`SetPending(id)` then `GetPending(id)` returns non-zero.  The C function
`NVIC_GetPendingIRQ` assigns the masked 32-bit word to a `uint8_t`, so
for `IRQn = 8` (EXTI2, bit position `8 % 32 = 8`) the masked value
`1 << 8 = 256` is truncated to 0 even though the pending bit is set in
the ISPR register. -/
theorem getPending_truncates_to_zero_eval :
    NVIC_GetPendingIRQ (NVIC_SetPendingIRQ initState 8) 8 = 0 ∧
      Nat.testBit ((NVIC_SetPendingIRQ initState 8).ISPR (8 / 32)) (8 % 32) = true := by
  decide

/-- C10: every discriminant of the `IRQn_Type` enumeration (the largest is
FMPI2C1_error = 96) yields in-bounds register indices: `id / 32 ≤ 3` for
the five bit-array register families and `id / 4 ≤ 24` for the packed
priority register array. -/
theorem irq_register_indices_in_bounds (IRQn : Nat) (h : ValidIRQ IRQn) :
    IRQn / 32 ≤ 3 ∧ IRQn / 4 ≤ 24 := by
  have hall : ∀ x ∈ IRQ_values, x / 32 ≤ 3 ∧ x / 4 ≤ 24 := by decide
  exact hall IRQn h

/-- Witness for C10 at the largest discriminant, `IRQn = 96`. -/
theorem irq_register_indices_in_bounds_witness :
    ValidIRQ 96 ∧ (96 / 32 ≤ 3 ∧ 96 / 4 ≤ 24) :=
  ⟨by decide, irq_register_indices_in_bounds 96 (by decide)⟩

/-- C3: for every supported identifier and every priority `p ≤ 15`,
`GetPriority` right after `SetPriority(id, p)` returns exactly `p`
(round-trip law). -/
theorem getPriority_after_setPriority (s : NVIC_RegDef) (IRQn p : Nat)
    (hid : ValidIRQ IRQn) (hp : p ≤ 15) :
    NVIC_GetPriority (NVIC_SetPriority s IRQn p) IRQn = p := by
  have hnot : ¬ p > 15 := by omega
  simp only [NVIC_SetPriority, NVIC_GetPriority, if_neg hnot, updReg_same]
  exact priority_field_roundtrip (s.IPR (IRQn / 4)) p ((IRQn % 4) * 8) hp (by omega)

/-- Witness for C3 at `IRQn = 6` (EXTI0), `p = 5`, from the reset state. -/
theorem getPriority_after_setPriority_witness :
    ValidIRQ 6 ∧ 5 ≤ 15 ∧ NVIC_GetPriority (NVIC_SetPriority initState 6 5) 6 = 5 :=
  ⟨by decide, by decide, getPriority_after_setPriority initState 6 5 (by decide) (by decide)⟩

/-- C4: for supported identifiers `id1 ≠ id2` whose 4-bit priority fields
are packed in the same IPR register (`id1 / 4 = id2 / 4`) and priorities
`p1, p2` in the 4-bit priority domain 0–15, writing `p1` to `id1` and then
`p2` to `id2` leaves `GetPriority(id1) = p1`: the read-modify-write never
disturbs the other packed fields of the register. -/
theorem setPriority_no_crosstalk (s : NVIC_RegDef) (id1 id2 p1 p2 : Nat)
    (h1 : ValidIRQ id1) (h2 : ValidIRQ id2) (hne : id1 ≠ id2)
    (hreg : id1 / 4 = id2 / 4) (hp1 : p1 ≤ 15) (hp2 : p2 ≤ 15) :
    NVIC_GetPriority (NVIC_SetPriority (NVIC_SetPriority s id1 p1) id2 p2) id1 = p1 := by
  have hm : id1 % 4 ≠ id2 % 4 := by omega
  have hn1 : ¬ p1 > 15 := by omega
  have hn2 : ¬ p2 > 15 := by omega
  simp only [NVIC_SetPriority, NVIC_GetPriority, if_neg hn1, if_neg hn2]
  simp only [hreg, updReg_same, updReg_updReg]
  rw [priority_field_other _ p2 ((id2 % 4) * 8) ((id1 % 4) * 8) (by omega) (by omega) (by omega)]
  exact priority_field_roundtrip _ p1 _ hp1 (by omega)

/-- Witness for C4 at `id1 = 6` (EXTI0), `id2 = 7` (EXTI1) — both in IPR
register 1 — with `p1 = 5`, `p2 = 10`, from the reset state. -/
theorem setPriority_no_crosstalk_witness :
    ValidIRQ 6 ∧ ValidIRQ 7 ∧ (6 : Nat) ≠ 7 ∧ (6 : Nat) / 4 = 7 / 4 ∧
      NVIC_GetPriority (NVIC_SetPriority (NVIC_SetPriority initState 6 5) 7 10) 6 = 5 :=
  ⟨by decide, by decide, by decide, by decide,
    setPriority_no_crosstalk initState 6 7 5 10 (by decide) (by decide) (by decide)
      (by decide) (by decide) (by decide)⟩

theorem testBit_shift_one_ne (b j : Nat) (h : j ≠ b) : Nat.testBit (1 <<< b) j = false := by
  rw [Nat.testBit_shiftLeft, testBit_one_bit]
  by_cases hbj : b ≤ j
  · simp [decide_eq_false (show ¬(j - b = 0) by omega)]
  · simp [decide_eq_false hbj]

theorem testBit_shift_one_self (b : Nat) : Nat.testBit (1 <<< b) b = true := by
  rw [Nat.testBit_shiftLeft, testBit_one_bit]
  simp

/-- C5: for every supported identifier, `NVIC_EnableIRQ` sets bit
`IRQn % 32` of enable register `IRQn / 32` and `NVIC_DisableIRQ` clears
that same logical bit, and in both cases every other bit `j < 32` of that
register (in particular the adjacent bits) keeps its value. -/
theorem enable_disable_bit_level (s : NVIC_RegDef) (IRQn : Nat) (h : ValidIRQ IRQn) :
    ((NVIC_EnableIRQ s IRQn).ISER (IRQn / 32)).testBit (IRQn % 32) = true ∧
    (∀ j, j < 32 → j ≠ IRQn % 32 →
      ((NVIC_EnableIRQ s IRQn).ISER (IRQn / 32)).testBit j = (s.ISER (IRQn / 32)).testBit j) ∧
    ((NVIC_DisableIRQ s IRQn).ISER (IRQn / 32)).testBit (IRQn % 32) = false ∧
    (∀ j, j < 32 → j ≠ IRQn % 32 →
      ((NVIC_DisableIRQ s IRQn).ISER (IRQn / 32)).testBit j = (s.ISER (IRQn / 32)).testBit j) := by
  refine ⟨?_, ?_, ?_, ?_⟩
  · simp only [NVIC_EnableIRQ, w1sWrite, updReg_same, Nat.testBit_lor,
      testBit_shift_one_self, Bool.or_true]
  · intro j hj hne
    simp only [NVIC_EnableIRQ, w1sWrite, updReg_same, Nat.testBit_lor,
      testBit_shift_one_ne (IRQn % 32) j hne, Bool.or_false]
  · simp only [NVIC_DisableIRQ, w1cWrite, updReg_same, Nat.testBit_land, Nat.testBit_xor,
      testBit_mask32, testBit_shift_one_self,
      decide_eq_true (show IRQn % 32 < 32 from Nat.mod_lt _ (by omega))]
    simp
  · intro j hj hne
    simp only [NVIC_DisableIRQ, w1cWrite, updReg_same, Nat.testBit_land, Nat.testBit_xor,
      testBit_mask32, testBit_shift_one_ne (IRQn % 32) j hne, decide_eq_true hj]
    simp

/-- Witness for C5 at `IRQn = 6` (EXTI0) from the reset state, checking
bit 6 and the adjacent bits 7 (after enable) and 5 (after disable). -/
theorem enable_disable_bit_level_witness :
    ValidIRQ 6 ∧
    ((NVIC_EnableIRQ initState 6).ISER (6 / 32)).testBit (6 % 32) = true ∧
    ((NVIC_EnableIRQ initState 6).ISER (6 / 32)).testBit 7
      = (initState.ISER (6 / 32)).testBit 7 ∧
    ((NVIC_DisableIRQ initState 6).ISER (6 / 32)).testBit (6 % 32) = false ∧
    ((NVIC_DisableIRQ initState 6).ISER (6 / 32)).testBit 5
      = (initState.ISER (6 / 32)).testBit 5 :=
  ⟨by decide, (enable_disable_bit_level initState 6 (by decide)).1,
    (enable_disable_bit_level initState 6 (by decide)).2.1 7 (by decide) (by decide),
    (enable_disable_bit_level initState 6 (by decide)).2.2.1,
    (enable_disable_bit_level initState 6 (by decide)).2.2.2 5 (by decide) (by decide)⟩

/-- C7: the three getters are pure reads — running any of them returns the
register block unchanged. -/
theorem getters_leave_state_unchanged (s : NVIC_RegDef) (IRQn : Nat) (h : ValidIRQ IRQn) :
    (runOp s (.getPendingIRQ IRQn)).1 = s ∧ (runOp s (.getPriority IRQn)).1 = s ∧
      (runOp s (.getActive IRQn)).1 = s :=
  ⟨rfl, rfl, rfl⟩

/-- Witness for C7 at `IRQn = 6` (EXTI0), from the reset state. -/
theorem getters_leave_state_unchanged_witness :
    ValidIRQ 6 ∧
      ((runOp initState (.getPendingIRQ 6)).1 = initState ∧
        (runOp initState (.getPriority 6)).1 = initState ∧
        (runOp initState (.getActive 6)).1 = initState) :=
  ⟨by decide, getters_leave_state_unchanged initState 6 (by decide)⟩

theorem runOp_preserves_IABR (s : NVIC_RegDef) (op : NVICOp) :
    ((runOp s op).1).IABR = s.IABR := by
  cases op with
  | setPriority IRQn p =>
    by_cases hp : p > 15 <;> simp [runOp, NVIC_SetPriority, hp]
  | _ => rfl

/-- C8: no sequence of driver calls ever changes the active bit-array
registers — the IABR state after running any list of operations equals the
initial IABR state. -/
theorem driver_never_changes_active (s : NVIC_RegDef) (ops : List NVICOp) :
    (runSeq s ops).IABR = s.IABR := by
  induction ops generalizing s with
  | nil => rfl
  | cons op rest ih =>
    rw [show runSeq s (op :: rest) = runSeq (runOp s op).1 rest from rfl, ih,
      runOp_preserves_IABR]

/-- C9: the five state-changing operations are idempotent — calling any of
them twice in a row with the same arguments leaves the register block in
the same state as calling it once. -/
theorem mutators_idempotent (s : NVIC_RegDef) (IRQn p : Nat) (h : ValidIRQ IRQn) :
    NVIC_EnableIRQ (NVIC_EnableIRQ s IRQn) IRQn = NVIC_EnableIRQ s IRQn ∧
    NVIC_DisableIRQ (NVIC_DisableIRQ s IRQn) IRQn = NVIC_DisableIRQ s IRQn ∧
    NVIC_SetPendingIRQ (NVIC_SetPendingIRQ s IRQn) IRQn = NVIC_SetPendingIRQ s IRQn ∧
    NVIC_ClearPendingIRQ (NVIC_ClearPendingIRQ s IRQn) IRQn = NVIC_ClearPendingIRQ s IRQn ∧
    NVIC_SetPriority (NVIC_SetPriority s IRQn p) IRQn p = NVIC_SetPriority s IRQn p := by
  refine ⟨?_, ?_, ?_, ?_, ?_⟩
  · simp only [NVIC_EnableIRQ, w1sWrite, updReg_updReg, updReg_same]
    rw [lor_self_right]
  · simp only [NVIC_DisableIRQ, w1cWrite, updReg_updReg, updReg_same]
    rw [land_self_right]
  · simp only [NVIC_SetPendingIRQ, w1sWrite, updReg_updReg, updReg_same]
    rw [lor_self_right]
  · simp only [NVIC_ClearPendingIRQ, w1cWrite, updReg_updReg, updReg_same]
    rw [land_self_right]
  · by_cases hp : p > 15
    · simp [NVIC_SetPriority, hp]
    · simp only [NVIC_SetPriority, if_neg hp, updReg_same, updReg_updReg]
      rw [lor_land_distrib, land_self_right,
        setbits_land_compl p ((IRQn % 4) * 8) (by omega)]
      simp

/-- Witness for C9 at `IRQn = 6` (EXTI0), `p = 5`, from the reset state. -/
theorem mutators_idempotent_witness :
    ValidIRQ 6 ∧
      (NVIC_EnableIRQ (NVIC_EnableIRQ initState 6) 6 = NVIC_EnableIRQ initState 6 ∧
      NVIC_DisableIRQ (NVIC_DisableIRQ initState 6) 6 = NVIC_DisableIRQ initState 6 ∧
      NVIC_SetPendingIRQ (NVIC_SetPendingIRQ initState 6) 6 = NVIC_SetPendingIRQ initState 6 ∧
      NVIC_ClearPendingIRQ (NVIC_ClearPendingIRQ initState 6) 6
        = NVIC_ClearPendingIRQ initState 6 ∧
      NVIC_SetPriority (NVIC_SetPriority initState 6 5) 6 5 = NVIC_SetPriority initState 6 5) :=
  ⟨by decide, mutators_idempotent initState 6 5 (by decide)⟩
